import Mathlib

/-!
Verification development for the pseudocode complexity analyzer
(modules `ast_nodes.py`, `analyzer.py`, grammar of `parser.py`).

The analyzer manipulates `sympy` expressions.  The development models the
fragment of sympy that the analyzer actually produces — rational constants,
the size symbol `n`, opaque symbols for other identifiers, sums, products,
powers, `log`, `Max`/`Min` — as the inductive type `SExpr`, together with
executable models of the sympy operations the analyzer calls on that
fragment (automatic evaluation of `+`, `*`, `/`, `Max`, `Min` under the
analyzer's global assumption that `n` is a positive integer, `simplify`,
`Order`-based dominant-term extraction, and `limit` classification on the
polynomial/log domain).  Every analyzer function is translated line by
line from `analyzer.py`.
-/

/-! ### Exact rational arithmetic

`Rat` from core does not reduce inside the kernel (its normalisation is
compiled by well-founded recursion), so the development carries its own
normalised fraction type whose operations are structurally recursive and
hence computable by `decide`/`rfl`.  It models sympy's exact `Rational`
numbers. -/

/-- Fuel-driven Euclidean algorithm; fully structural so the kernel can
evaluate it.  `gcdFuel f a b` equals `Nat.gcd a b` whenever `f > a`. -/
def gcdFuel : Nat → Nat → Nat → Nat
  | 0, _, b => b
  | _ + 1, 0, b => b
  | fuel + 1, a + 1, b => gcdFuel fuel (b % (a + 1)) (a + 1)

/-- Greatest common divisor via `gcdFuel` with enough fuel. -/
def gcdN (a b : Nat) : Nat := gcdFuel (a + 1) a b

/-- Normalised rational number: positive denominator, fraction in lowest
terms (maintained by the smart constructor `Frac.mk'`). -/
structure Frac where
  num : Int
  den : Nat
deriving DecidableEq, Repr

/-- Build a normalised fraction from a numerator and a (possibly negative)
denominator.  A zero denominator yields 0 (never produced by the
analyzer's inputs). -/
def Frac.mk' (n : Int) (d : Int) : Frac :=
  if d = 0 then ⟨0, 1⟩
  else
    let s : Int := if d < 0 then -n else n
    let dn : Nat := d.natAbs
    let g := gcdN s.natAbs dn
    if g = 0 then ⟨0, 1⟩ else ⟨s / (g : Int), dn / g⟩

def Frac.ofInt (n : Int) : Frac := ⟨n, 1⟩

instance (n : Nat) : OfNat Frac n := ⟨⟨(n : Int), 1⟩⟩

def Frac.add (a b : Frac) : Frac :=
  Frac.mk' (a.num * (b.den : Int) + b.num * (a.den : Int)) ((a.den : Int) * (b.den : Int))

def Frac.mul (a b : Frac) : Frac :=
  Frac.mk' (a.num * b.num) ((a.den : Int) * (b.den : Int))

def Frac.neg (a : Frac) : Frac := ⟨-a.num, a.den⟩

def Frac.sub (a b : Frac) : Frac := a.add b.neg

def Frac.inv (a : Frac) : Frac := Frac.mk' (a.den : Int) a.num

def Frac.div (a b : Frac) : Frac := a.mul b.inv

/-- Decidable order on fractions (denominators are positive). -/
def Frac.le (a b : Frac) : Bool := a.num * (b.den : Int) ≤ b.num * (a.den : Int)

def Frac.lt (a b : Frac) : Bool := a.num * (b.den : Int) < b.num * (a.den : Int)

def Frac.npow (a : Frac) : Nat → Frac
  | 0 => 1
  | k + 1 => a.mul (a.npow k)

def Frac.zpow (a : Frac) : Int → Frac
  | .ofNat k => a.npow k
  | .negSucc k => (a.npow (k + 1)).inv

/-! ### The symbolic-expression fragment -/

/-- The fragment of sympy expressions the analyzer constructs: rational
constants, the size symbol `n` (`Symbol('n', integer=True, positive=True)`
in `Analyzer.__init__`), opaque symbols for other identifiers
(`Analyzer._resolve_expr`), sums, products, powers, `log`, `Max`, `Min`. -/
inductive SExpr where
  | num (q : Frac)
  | n
  | sym (s : String)
  | add (a b : SExpr)
  | mul (a b : SExpr)
  | pow (a b : SExpr)
  | log (a : SExpr)
  | max2 (a b : SExpr)
  | min2 (a b : SExpr)
deriving DecidableEq, Repr

/-- Monomial `coeff * n^dn * Π s^k` over the size symbol and the opaque
symbols; the building block of the polynomial normal form used to model
sympy's `simplify`/`Order`/`limit` on the analyzer's expressions. -/
structure Mono where
  coeff : Frac
  dn : Nat
  syms : List (String × Nat)
deriving DecidableEq, Repr

/-- Compare two sorted symbol lists lexicographically. -/
def cmpSyms : List (String × Nat) → List (String × Nat) → Ordering
  | [], [] => .eq
  | [], _ :: _ => .lt
  | _ :: _, [] => .gt
  | (s, k) :: t, (s', k') :: t' =>
    match compare s s' with
    | .eq =>
      match compare k k' with
      | .eq => cmpSyms t t'
      | o => o
    | o => o

def cmpMonoKey (a b : Mono) : Ordering :=
  match compare a.dn b.dn with
  | .eq => cmpSyms a.syms b.syms
  | o => o

/-- Insert a monomial into a canonically sorted (descending key) monomial
list, merging equal keys and dropping zero coefficients. -/
def insertMono (m : Mono) : List Mono → List Mono
  | [] => if m.coeff = 0 then [] else [m]
  | m' :: rest =>
    match cmpMonoKey m m' with
    | .eq =>
      let c := m.coeff.add m'.coeff
      if c = 0 then rest else ⟨c, m'.dn, m'.syms⟩ :: rest
    | .gt => if m.coeff = 0 then m' :: rest else m :: m' :: rest
    | .lt => m' :: insertMono m rest

def padd (p q : List Mono) : List Mono := q.foldl (fun acc m => insertMono m acc) p

/-- Add one symbol power into a sorted symbol list. -/
def addToSyms (s : String) (k : Nat) : List (String × Nat) → List (String × Nat)
  | [] => [(s, k)]
  | (s', k') :: rest =>
    match compare s s' with
    | .lt => (s, k) :: (s', k') :: rest
    | .eq => (s', k + k') :: rest
    | .gt => (s', k') :: addToSyms s k rest

def mulSyms (xs ys : List (String × Nat)) : List (String × Nat) :=
  xs.foldl (fun acc p => addToSyms p.1 p.2 acc) ys

def monoMul (a b : Mono) : Mono :=
  ⟨a.coeff.mul b.coeff, a.dn + b.dn, mulSyms a.syms b.syms⟩

def pmul (p q : List Mono) : List Mono :=
  p.foldl (fun acc m => padd acc (q.map (monoMul m))) []

def ppow (p : List Mono) : Nat → List Mono
  | 0 => [⟨1, 0, []⟩]
  | k + 1 => pmul p (ppow p k)

def pneg (p : List Mono) : List Mono := p.map fun m => ⟨m.coeff.neg, m.dn, m.syms⟩

/-- Polynomial normal form of an expression, when the expression is a
polynomial in `n` and the opaque symbols (no `log`, `Max`, `Min`,
non-natural exponents).  Models the algebraic part of sympy's
`simplify`/`expand`. -/
def polyNorm : SExpr → Option (List Mono)
  | .num q => some (if q = 0 then [] else [⟨q, 0, []⟩])
  | .n => some [⟨1, 1, []⟩]
  | .sym s => some [⟨1, 0, [(s, 1)]⟩]
  | .add a b =>
    match polyNorm a, polyNorm b with
    | some p, some q => some (padd p q)
    | _, _ => none
  | .mul a b =>
    match polyNorm a, polyNorm b with
    | some p, some q => some (pmul p q)
    | _, _ => none
  | .pow a b =>
    match polyNorm a, b with
    | some p, .num q =>
      if q.den = 1 ∧ 0 ≤ q.num then some (ppow p q.num.toNat) else none
    | _, _ => none
  | .log _ => none
  | .max2 _ _ => none
  | .min2 _ _ => none

/-- Rebuild a power of `n` (sympy auto-evaluates `n**1` to `n`). -/
def nPowN (dn : Nat) : SExpr := if dn = 1 then .n else .pow .n (.num (Frac.ofInt dn))

def symPow (s : String) (k : Nat) : SExpr :=
  if k = 1 then .sym s else .pow (.sym s) (.num (Frac.ofInt k))

/-- Rebuild a monomial as an expression (numeric coefficient first, as in
sympy's `Mul` ordering). -/
def monoToSE (m : Mono) : SExpr :=
  let factors : List SExpr :=
    (if m.dn = 0 then [] else [nPowN m.dn]) ++ m.syms.map fun p => symPow p.1 p.2
  match factors with
  | [] => .num m.coeff
  | f :: rest =>
    let base := rest.foldl .mul f
    if m.coeff = 1 then base else .mul (.num m.coeff) base

def polyToSE : List Mono → SExpr
  | [] => .num 0
  | m :: rest => rest.foldl (fun acc m' => .add acc (monoToSE m')) (monoToSE m)

/-- Model of sympy's `.simplify()` restricted to the shapes this development
asserts simplified forms for: polynomials in `n` and the opaque symbols are
collected into canonical form; any other shape passes through unchanged and
no simplified form of it is asserted anywhere below. -/
def simpSE (e : SExpr) : SExpr :=
  match polyNorm e with
  | some p => polyToSE p
  | none => e

/-! ### Smart constructors modelling sympy's automatic evaluation -/

/-- Addition with sympy's automatic evaluation on the fragment
(`0 + x = x`, numeral folding). -/
def sadd (a b : SExpr) : SExpr :=
  match a, b with
  | .num p, .num q => .num (p.add q)
  | .num p, e => if p = 0 then e else .add (.num p) e
  | e, .num q => if q = 0 then e else .add e (.num q)
  | a, b => .add a b

/-- Multiply an expression by a numeric coefficient with sympy's
automatic `Mul` evaluation: a number distributes over a sum
(`2*(n - i + 1)` is `2*n - 2*i + 2` in sympy), folds into an existing
numeric coefficient of a product, and `0 * x = 0`, `1 * x = x`. -/
def distribNum (p : Frac) : SExpr → SExpr
  | .add x y => sadd (distribNum p x) (distribNum p y)
  | .num q => .num (p.mul q)
  | .mul (.num q) e =>
    let r := p.mul q
    if r = 0 then .num 0 else if r = 1 then e else .mul (.num r) e
  | e => if p = 0 then .num 0 else if p = 1 then e else .mul (.num p) e

/-- Multiplication with sympy's automatic evaluation on the fragment
(numeral folding and distribution via `distribNum`, numeric coefficient
kept first). -/
def smul (a b : SExpr) : SExpr :=
  match a, b with
  | .num p, e => distribNum p e
  | e, .num q => distribNum q e
  | a, b => .mul a b

/-- Subtraction, as sympy represents it: `a - b = a + (-1)*b`. -/
def ssub (a b : SExpr) : SExpr := sadd a (smul (.num (Frac.ofInt (-1))) b)

def spow (a b : SExpr) : SExpr :=
  match b with
  | .num q => if q = 1 then a else if q = 0 then .num 1 else .pow a (.num q)
  | _ => .pow a b

/-- Division, as sympy represents it: `a / b = a * b⁻¹`; a numeric divisor
becomes a rational coefficient (`n/2` is `Mul(1/2, n)` in sympy). -/
def sdiv (a b : SExpr) : SExpr :=
  match b with
  | .num q => smul a (.num q.inv)
  | _ => smul a (spow b (.num (Frac.ofInt (-1))))

/-- The flattened factor list of a product, as sympy's `Mul.args` exposes
it (sympy auto-flattens nested `Mul`). -/
def mulFactors : SExpr → List SExpr
  | .mul a b => mulFactors a ++ mulFactors b
  | e => [e]

/-- The flattened term list of a sum, as sympy's `Add.args` exposes it. -/
def addTerms : SExpr → List SExpr
  | .add a b => addTerms a ++ addTerms b
  | e => [e]

/-- Substitution of a value for the size symbol `n`, re-evaluating with
the smart constructors as sympy's `.subs(n, v)` does (used by
`_find_recursion_divider` with `v = 1` and `v = 0`; its inputs are
`_resolve_expr` outputs, so the `log`/`Max`/`Min` cases are inert). -/
def subsN (v : SExpr) : SExpr → SExpr
  | .n => v
  | .num q => .num q
  | .sym s => .sym s
  | .add a b => sadd (subsN v a) (subsN v b)
  | .mul a b => smul (subsN v a) (subsN v b)
  | .pow a b => spow (subsN v a) (subsN v b)
  | .log a => .log (subsN v a)
  | .max2 a b => .max2 (subsN v a) (subsN v b)
  | .min2 a b => .min2 (subsN v a) (subsN v b)

/-- Is the polynomial provably nonnegative for every `n ≥ 1`?  (Sound
sufficient check: no opaque symbols, nonnegative coefficients on all
`n`-dependent monomials, nonnegative value at `n = 1`.)  This is the
comparison sympy's `Max`/`Min` can decide under the analyzer's assumption
`Symbol('n', integer=True, positive=True)`. -/
def polyNonnegOn1 (p : List Mono) : Bool :=
  p.all (fun m => m.syms = []) &&
  p.all (fun m => m.dn = 0 || Frac.le 0 m.coeff) &&
  Frac.le 0 (p.foldl (fun acc m => acc.add m.coeff) 0)

/-- `Max` with sympy's automatic evaluation: the larger argument is kept
when the comparison is decidable for all `n ≥ 1`, else the node stays
symbolic. -/
def smax (a b : SExpr) : SExpr :=
  match polyNorm a, polyNorm b with
  | some p, some q =>
    if polyNonnegOn1 (padd p (pneg q)) then a
    else if polyNonnegOn1 (padd q (pneg p)) then b
    else .max2 a b
  | _, _ => .max2 a b

/-- `Min` with sympy's automatic evaluation, dually to `smax`. -/
def smin (a b : SExpr) : SExpr :=
  match polyNorm a, polyNorm b with
  | some p, some q =>
    if polyNonnegOn1 (padd p (pneg q)) then b
    else if polyNonnegOn1 (padd q (pneg p)) then a
    else .min2 a b
  | _, _ => .min2 a b

/-! ### Growth classification, dominant term, limits -/

/-- Growth class `(d, k)` of an expression: asymptotically `n^d * log(n)^k`
(opaque symbols count as constants, exactly as sympy's `Order`/`limit`
with respect to `n` treats them).  `none` when the shape is outside the
classifiable fragment. -/
def growth (e : SExpr) : Option (Frac × Nat) :=
  match polyNorm e with
  | some [] => none
  | some (m :: _) => some (Frac.ofInt m.dn, 0)
  | none =>
    match e with
    | .log a =>
      match growth a with
      | some (d, k) =>
        if Frac.lt 0 d then some (0, 1)
        else if d = 0 ∧ k = 0 then some (0, 0)
        else none
      | none => none
    | .add a b =>
      match growth a, growth b with
      | some (d1, k1), some (d2, k2) =>
        if Frac.lt d1 d2 then some (d2, k2)
        else if Frac.lt d2 d1 then some (d1, k1)
        else some (d1, max k1 k2)
      | _, _ => none
    | .mul a b =>
      match growth a, growth b with
      | some (d1, k1), some (d2, k2) => some (d1.add d2, k1 + k2)
      | _, _ => none
    | .pow a b =>
      match growth a, b with
      | some (d, k), .num q =>
        if k = 0 then some (d.mul q, 0)
        else if d = 0 ∧ q.den = 1 ∧ 0 ≤ q.num then some (0, k * q.num.toNat)
        else none
      | _, _ => none
    | _ => none

/-- Canonical dominant term `n^d * log(n)^k` as sympy's `O(...).args[0]`
yields it (`1` for constants, bare `n` for degree one). -/
def dominantFromGrowth (d : Frac) (k : Nat) : SExpr :=
  let npart : SExpr := if d = 1 then .n else .pow .n (.num d)
  let lpart : SExpr := if k = 1 then .log .n else .pow (.log .n) (.num (Frac.ofInt k))
  if d = 0 then (if k = 0 then .num 1 else lpart)
  else if k = 0 then npart
  else .mul npart lpart

/-! ### String output

Models `str(...)` of sympy only on the simple canonical shapes whose
printed form is asserted below: dominant terms such as `n**2` and
`n*log(n)`, and short collected polynomials such as `2*n + 3`.  Nothing
is asserted about the printer on any other shape. -/

def natDigitStr (d : Nat) : String :=
  if d = 0 then "0" else if d = 1 then "1" else if d = 2 then "2"
  else if d = 3 then "3" else if d = 4 then "4" else if d = 5 then "5"
  else if d = 6 then "6" else if d = 7 then "7" else if d = 8 then "8" else "9"

def natToStrFuel : Nat → Nat → String
  | 0, _ => ""
  | fuel + 1, m => if m < 10 then natDigitStr m else natToStrFuel fuel (m / 10) ++ natDigitStr (m % 10)

def natToStr (m : Nat) : String := natToStrFuel (m + 1) m

def intToStr (i : Int) : String :=
  match i with
  | .ofNat k => natToStr k
  | .negSucc k => "-" ++ natToStr (k + 1)

def fracToStr (q : Frac) : String :=
  if q.den = 1 then intToStr q.num else intToStr q.num ++ "/" ++ natToStr q.den

def SExpr.toStr : SExpr → String
  | .num q => fracToStr q
  | .n => "n"
  | .sym s => s
  | .add a b => a.toStr ++ " + " ++ b.toStr
  | .mul a b => a.toStr ++ "*" ++ b.toStr
  | .pow a b => a.toStr ++ "**" ++ b.toStr
  | .log a => "log(" ++ a.toStr ++ ")"
  | .max2 a b => "Max(" ++ a.toStr ++ ", " ++ b.toStr ++ ")"
  | .min2 a b => "Min(" ++ a.toStr ++ ", " ++ b.toStr ++ ")"

/-! ### Semantic evaluation (used to compare cost expressions pointwise) -/

/-- Evaluate an expression at a concrete value of `n` and a valuation of
the opaque symbols; `none` on `log` (irrational) and fractional powers. -/
def evalSE (nv : Frac) (env : String → Frac) : SExpr → Option Frac
  | .num q => some q
  | .n => some nv
  | .sym s => some (env s)
  | .add a b =>
    match evalSE nv env a, evalSE nv env b with
    | some x, some y => some (x.add y)
    | _, _ => none
  | .mul a b =>
    match evalSE nv env a, evalSE nv env b with
    | some x, some y => some (x.mul y)
    | _, _ => none
  | .pow a b =>
    match evalSE nv env a, evalSE nv env b with
    | some x, some y => if y.den = 1 then some (x.zpow y.num) else none
    | _, _ => none
  | .log _ => none
  | .max2 a b =>
    match evalSE nv env a, evalSE nv env b with
    | some x, some y => some (if x.le y then y else x)
    | _, _ => none
  | .min2 a b =>
    match evalSE nv env a, evalSE nv env b with
    | some x, some y => some (if x.le y then x else y)
    | _, _ => none

/-! ### AST (from `ast_nodes.py`)

The `line` field of `ASTNode` is omitted: the parser's transformer never
sets it (it stays `None`), and the analyzer never reads it. -/

/-- Expression nodes: `VarNode`, `ConstNode`, `StringNode`, `BinOpNode`,
`UnaryOpNode`. -/
inductive Expression where
  | VarNode (name : String)
  | ConstNode (value : Int)
  | StringNode (value : String)
  | BinOpNode (left : Expression) (op : String) (right : Expression)
  | UnaryOpNode (op : String) (operand : Expression)
deriving DecidableEq, Repr

/-- Statement nodes: `SequenceNode`, `AssignNode`, `ForLoopNode`,
`WhileLoopNode`, `IfNode`, `CallNode`.  The parser guarantees that every
control-construct body is a `SequenceNode`. -/
inductive Statement where
  | SequenceNode (statements : List Statement)
  | AssignNode (target : Expression) (value : Expression)
  | ForLoopNode (var : Expression) (start : Expression) (stop : Expression) (body : Statement)
  | WhileLoopNode (condition : Expression) (body : Statement)
  | IfNode (condition : Expression) (then_branch : Statement) (else_branch : Option Statement)
  | CallNode (func_name : String) (args : List Expression)

/-- Top-level `FunctionNode(name, params, body)`. -/
structure FunctionNode where
  name : String
  params : List String
  body : Statement

/-! ### The analyzer (from `analyzer.py`) -/

/-- `ComplexityResult`: symbolic worst-case (`O`) and best-case (`Omega`)
costs.  It has no third component: the class stores only these two
fields. -/
structure ComplexityResult where
  O : SExpr
  Omega : SExpr
deriving DecidableEq, Repr

/-- `ComplexityResult.__add__`: sequential composition adds both
components. -/
def ComplexityResult.addCR (x y : ComplexityResult) : ComplexityResult :=
  ⟨sadd x.O y.O, sadd x.Omega y.Omega⟩

/-- `ComplexityResult.__mul__`: multiply both components by an iteration
count. -/
def ComplexityResult.mulCR (x : ComplexityResult) (e : SExpr) : ComplexityResult :=
  ⟨smul x.O e, smul x.Omega e⟩

/-- `ComplexityResult.O_Omega_from_branches`: worst case combines branches
with `Max`, best case with `Min`, each after the condition cost. -/
def O_Omega_from_branches (cond_cost then_cost else_cost : ComplexityResult) : ComplexityResult :=
  ⟨sadd cond_cost.O (smax then_cost.O else_cost.O),
   sadd cond_cost.Omega (smin then_cost.Omega else_cost.Omega)⟩

/-- Per-function recursion state (`Analyzer.recursion_info` values):
branching factor `a` and the list of extracted divisors `b_list`.  The
divisors are sympy expressions in the source (`_find_recursion_divider`
can return a symbolic `1/m` as well as a rational), so they are `SExpr`
values here. -/
structure RecInfo where
  a : Nat
  b_list : List SExpr
deriving DecidableEq, Repr

/-- Insertion-ordered dictionary update, as Python `dict` assignment
behaves (overwrite in place, else append). -/
def setEntry {α : Type} (k : String) (v : α) : List (String × α) → List (String × α)
  | [] => [(k, v)]
  | (k', v') :: rest => if k = k' then (k, v) :: rest else (k', v') :: setEntry k v rest

def getEntry {α : Type} (k : String) : List (String × α) → Option α
  | [] => none
  | (k', v') :: rest => if k = k' then some v' else getEntry k rest

/-- The `Analyzer`'s mutable instance state: `function_costs` (memoised
resolved costs), `current_function_name`, and `recursion_info`. -/
structure AnalyzerState where
  function_costs : List (String × ComplexityResult)
  current_function_name : Option String
  recursion_info : List (String × RecInfo)
deriving DecidableEq, Repr

/-- The state `Analyzer.__init__` installs on a freshly constructed
instance. -/
def initState : AnalyzerState := ⟨[], none, []⟩

/-- The runtime failures the analyzer can raise: `generic_visit`'s
`NotImplementedError` ("No visit_<Class> method defined") when a node
kind has no `visit_...` method, and Python's `TypeError` when the truth
value of a symbolic sympy relational is taken (`if c < 0:` in
`_find_recursion_divider`, `if b <= 1:` in `_apply_master_theorem`). -/
inductive VisitError where
  | noVisitMethod (nodeType : String)
  | typeError (msg : String)
deriving DecidableEq, Repr

instance {ε α : Type} [DecidableEq ε] [DecidableEq α] : DecidableEq (Except ε α) := fun a b =>
  match a, b with
  | .ok x, .ok y =>
    if h : x = y then .isTrue (by rw [h]) else .isFalse (fun hh => h (Except.ok.inj hh))
  | .error e, .error f =>
    if h : e = f then .isTrue (by rw [h]) else .isFalse (fun hh => h (Except.error.inj hh))
  | .ok _, .error _ => .isFalse fun hh => Except.noConfusion hh
  | .error _, .ok _ => .isFalse fun hh => Except.noConfusion hh

/-- `Analyzer._resolve_expr`: convert an AST expression into a symbolic
value.  `n` becomes the size symbol, other variables opaque symbols,
constants rationals; `+ - * /` are computed; any other shape falls through
to the default `sympify(1)`. -/
def resolve_expr : Expression → SExpr
  | .VarNode name => if name = "n" then .n else .sym name
  | .ConstNode v => .num (Frac.ofInt v)
  | .BinOpNode l op r =>
    let left := resolve_expr l
    let right := resolve_expr r
    if op = "+" then sadd left right
    else if op = "-" then ssub left right
    else if op = "*" then smul left right
    else if op = "/" then sdiv left right
    else .num 1
  | _ => .num 1

/-- `Analyzer._find_recursion_divider`: from the first argument of a
recursive call, try to extract `b` such that the argument is `n / b`.
When the argument is a product with `n` among its factors (`is_Mul` and
`n in args`), `b = (1 / arg.subs(n, 1)).simplify()` is returned — a
rational for `n/2`, a symbolic `1/m` for `n*m`.  Otherwise, when the
argument is a sum containing `n` (`is_Add`), the source evaluates
`if c < 0:` on `c = arg.subs(n, 0)`: for a numeric `c` this only logs
(substractive recursion) and `None` is returned, but for a symbolic `c`
the comparison is an unevaluated sympy relational whose truth value
raises `TypeError`.  Any other shape yields `None`. -/
def find_recursion_divider (args : List Expression) : Except VisitError (Option SExpr) :=
  match args with
  | [] => .ok none
  | arg :: _ =>
    let arg_expr := resolve_expr arg
    let mulHit : Option SExpr :=
      match arg_expr with
      | .mul _ _ =>
        if SExpr.n ∈ mulFactors arg_expr then
          let b_inv := subsN (.num 1) arg_expr
          if b_inv ≠ .num 0 then some (simpSE (sdiv (.num 1) b_inv)) else none
        else none
      | _ => none
    match mulHit with
    | some b_val => .ok (some b_val)
    | none =>
      match arg_expr with
      | .add _ _ =>
        if SExpr.n ∈ addTerms arg_expr then
          match subsN (.num 0) arg_expr with
          | .num _ => .ok none
          | _ => .error (.typeError "cannot determine truth value of Relational")
        else .ok none
      | _ => .ok none

/-- Expression-cost visiting (`visit_VarNode`, `visit_ConstNode`,
`visit_BinOpNode`).  `StringNode` and `UnaryOpNode` have no `visit_...`
method on the `Analyzer`, so dispatch falls into `generic_visit` and
raises. -/
def visitExpr : Expression → Except VisitError ComplexityResult
  | .VarNode _ => .ok ⟨.num 1, .num 1⟩
  | .ConstNode _ => .ok ⟨.num 1, .num 1⟩
  | .BinOpNode l _ r => do
    let left_cost ← visitExpr l
    let right_cost ← visitExpr r
    .ok (ComplexityResult.addCR (ComplexityResult.addCR ⟨.num 1, .num 1⟩ left_cost) right_cost)
  | .StringNode _ => .error (.noVisitMethod "StringNode")
  | .UnaryOpNode _ _ => .error (.noVisitMethod "UnaryOpNode")

/-- Statement-cost visiting: `visit_SequenceNode`, `visit_AssignNode`,
`visit_ForLoopNode`, `visit_IfNode`, `visit_WhileLoopNode`,
`visit_CallNode`, threading the analyzer's mutable state explicitly. -/
def visitStmt (st : AnalyzerState) : Statement → Except VisitError (AnalyzerState × ComplexityResult)
  | .SequenceNode stmts => visitStmts st stmts
  | .AssignNode _ value => do
    let expr_cost ← visitExpr value
    .ok (st, ComplexityResult.addCR ⟨.num 1, .num 1⟩ expr_cost)
  | .ForLoopNode _ start stop body => do
    let start_val := resolve_expr start
    let end_val := resolve_expr stop
    let iterations := simpSE (sadd (ssub end_val start_val) (.num 1))
    let (st1, body_cost) ← visitStmt st body
    .ok (st1, ComplexityResult.mulCR body_cost iterations)
  | .WhileLoopNode condition body => do
    let cond_cost ← visitExpr condition
    let (st1, body_cost) ← visitStmt st body
    .ok (st1, ⟨sadd cond_cost.O (smul (sadd cond_cost.O body_cost.O) SExpr.n),
               cond_cost.Omega⟩)
  | .IfNode condition then_branch else_branch => do
    let cond_cost ← visitExpr condition
    let (st1, then_cost) ← visitStmt st then_branch
    match else_branch with
    | some eb => do
      let (st2, else_cost) ← visitStmt st1 eb
      .ok (st2, O_Omega_from_branches cond_cost then_cost else_cost)
    | none =>
      .ok (st1, O_Omega_from_branches cond_cost then_cost ⟨.num 1, .num 1⟩)
  | .CallNode func_name args =>
    match st.current_function_name with
    | some cur =>
      if func_name = cur then
        -- The source increments `a` in the instance dict before calling
        -- `_find_recursion_divider`; when the latter raises, the Python
        -- exception propagates and the partial mutation is observable
        -- only on the abandoned instance, which no caller reads again,
        -- so the model's error result carries no state.
        let info := (getEntry cur st.recursion_info).getD ⟨0, []⟩
        match find_recursion_divider args with
        | .error e => .error e
        | .ok b_val =>
          let info' : RecInfo :=
            { a := info.a + 1,
              b_list :=
                match b_val with
                | some b => info.b_list ++ [b]
                | none => info.b_list }
          .ok ({ st with recursion_info := setEntry cur info' st.recursion_info },
               ⟨.num 0, .num 0⟩)
      else
        match getEntry func_name st.function_costs with
        | some c => .ok (st, c)
        | none => .ok (st, ⟨.num 1, .num 1⟩)
    | none =>
      match getEntry func_name st.function_costs with
      | some c => .ok (st, c)
      | none => .ok (st, ⟨.num 1, .num 1⟩)
where
  visitStmts (st : AnalyzerState) :
      List Statement → Except VisitError (AnalyzerState × ComplexityResult)
    | [] => .ok (st, ⟨.num 0, .num 0⟩)
    | s :: rest => do
      let (st1, c1) ← visitStmt st s
      let (st2, c2) ← visitStmts st1 rest
      .ok (st2, ComplexityResult.addCR c1 c2)

/-- Compare a rational degree `d` against the critical exponent
`log_b a` (for `b > 1`): the sign of `b^d - a`, decided exactly via
`b^(d.num)` versus `a^(d.den)`. -/
def cmpDegLog (d : Frac) (a : Nat) (b : Frac) : Ordering :=
  let lhs := b.zpow d.num
  let rhs := (Frac.ofInt (a : Int)).npow d.den
  if lhs.lt rhs then .lt else if rhs.lt lhs then .gt else .eq

/-- Exact value of `log_b a` when it is a small natural number; models
sympy's automatic cancellation of `log(a)/log(b)` (e.g. `log(2, 2) = 1`). -/
def ratLog (a : Nat) (b : Frac) : Option Frac :=
  (List.range 65).findSome? fun k =>
    if b.npow k = Frac.ofInt (a : Int) then some (Frac.ofInt (k : Int)) else none

/-- The symbolic `n ** log_b(a)` the source builds (`self.n ** c_crit`). -/
def n_pow_crit (a : Nat) (b : Frac) : SExpr :=
  match ratLog a b with
  | some c => spow .n (.num c)
  | none =>
    .pow .n (.mul (.log (.num (Frac.ofInt (a : Int))))
                  (.pow (.log (.num b)) (.num (Frac.ofInt (-1)))))

/-- The three-way outcome of `sympy.limit(f(n) / n^c_crit, n, oo)` on the
polynomial/log fragment, classified through `growth`: degree below the
critical exponent gives 0, equal degree with no log factor gives a finite
positive limit, anything larger (including equal degree with log factors)
gives `oo`; an unclassifiable shape is indeterminate (`none`). -/
def limitClass (f : SExpr) (a : Nat) (b : Frac) : Option Ordering :=
  match growth f with
  | some (d, k) =>
    match cmpDegLog d a b, k with
    | .lt, _ => some .lt
    | .eq, 0 => some .eq
    | _, _ => some .gt
  | none => none

/-- `Analyzer._apply_master_theorem`: for `T(n) = a·T(n/b) + f(n)`.
The guard `if b <= 1:` sits before the `try` block: for a numeric `b` it
falls back to the local cost when `b ≤ 1`; for a symbolic `b` (e.g. the
`1/m` extracted from `CALL F(n*m)`) the comparison is an unevaluated
relational whose truth value raises `TypeError`, uncaught.  Past the
guard, the limit comparison of `f(n)` with `n^(log_b a)` selects case 1
(`Θ(n^c)`), case 2 (`Θ(n^c · log n)`) or case 3 (`Θ(f(n))`); an
indeterminate limit (and the `except` guard around the case analysis)
falls back to the local cost. -/
def apply_master_theorem (a : Nat) (b : SExpr) (f_n_cost : ComplexityResult) :
    Except VisitError ComplexityResult :=
  match b with
  | .num q =>
    if q.le 1 then .ok f_n_cost
    else
      let f_n := let s := simpSE f_n_cost.O; if s = .num 0 then .num 1 else s
      match limitClass f_n a q with
      | some .lt =>
        let T := n_pow_crit a q
        .ok ⟨T, T⟩
      | some .eq =>
        match growth f_n with
        | some (d, _) =>
          let T := smul (spow .n (.num d)) (.log .n)
          .ok ⟨T, T⟩
        | none => .ok f_n_cost
      | some .gt => .ok ⟨f_n, f_n⟩
      | none => .ok f_n_cost
  | _ => .error (.typeError "cannot determine truth value of Relational")

/-- The post-visit recursion resolution of `Analyzer.visit_FunctionNode`
(its steps 2-4): a non-recursive function (`a = 0`) keeps the local cost;
a recursive function with an empty divisor list uses `b = 1`, so the
Master Theorem's `b <= 1` guard falls back to the local cost; divisors
that disagree across calls give up and keep the local cost; agreeing
divisors go through the Master Theorem.  Every branch of the source both
stores the resulting cost in `function_costs[name]` and returns it, so
the storing is factored into `visit_FunctionNode` below. -/

def resolve_function_cost (a : Nat) (b_list : List SExpr) (f_n_cost : ComplexityResult) :
    Except VisitError ComplexityResult :=
  if a > 0 then
    match b_list with
    | [] => apply_master_theorem a (.num 1) f_n_cost
    | b :: rest =>
      if rest.all (fun v => v = b) then apply_master_theorem a b f_n_cost
      else .ok f_n_cost
  else .ok f_n_cost

/-- `Analyzer.visit_FunctionNode`: set the current function name,
initialise its recursion record, visit the body (accumulating the local
work `f(n)` while `visit_CallNode` populates the recursion info), resolve
the recursion through `resolve_function_cost`, store the result in
`function_costs`, clear the current function name, and return it. -/
def visit_FunctionNode (st : AnalyzerState) (node : FunctionNode) :
    Except VisitError (AnalyzerState × ComplexityResult) := do
  let st0 : AnalyzerState :=
    { st with current_function_name := some node.name,
              recursion_info := setEntry node.name ⟨0, []⟩ st.recursion_info }
  let (st1, f_n_cost) ← visitStmt st0 node.body
  let rec_info := (getEntry node.name st1.recursion_info).getD ⟨0, []⟩
  let solved ← resolve_function_cost rec_info.a rec_info.b_list f_n_cost
  .ok ({ st1 with function_costs := setEntry node.name solved st1.function_costs,
                  current_function_name := none }, solved)

/-- The loop of `Analyzer.analyze` step 1: visit every function in order,
threading the instance state. -/
def runFunctions (st : AnalyzerState) :
    List FunctionNode → Except VisitError AnalyzerState
  | [] => .ok st
  | f :: rest => do
    let (st1, _) ← visit_FunctionNode st f
    runFunctions st1 rest

/-- `Analyzer._get_dominant_term`: simplify, map `0` to `1`, then keep the
dominant growth term (constants give `1`). -/
def get_dominant_term (e : SExpr) : SExpr :=
  let e' := simpSE e
  if e' = .num 0 then .num 1
  else
    match growth e' with
    | some (d, k) => dominantFromGrowth d k
    | none => e'

/-- The output-assembly tail of `Analyzer.analyze` (steps 3): dominant
terms for `O` and `Ω`, a `Θ` only when the two dominant expressions are
equal, and the simplified raw costs, as an insertion-ordered record. -/
def analyze_output (raw_result : ComplexityResult) : List (String × String) :=
  let O_expr := get_dominant_term raw_result.O
  let Omega_expr := get_dominant_term raw_result.Omega
  let Theta_expr : Option SExpr := if O_expr = Omega_expr then some Omega_expr else none
  [("O", "O(" ++ O_expr.toStr ++ ")"),
   ("Omega", "Ω(" ++ Omega_expr.toStr ++ ")"),
   ("Theta",
     match Theta_expr with
     | some t => "Θ(" ++ t.toStr ++ ")"
     | none => "Θ(N/A - Cota no ajustada)"),
   ("raw_O", (simpSE raw_result.O).toStr),
   ("raw_Omega", (simpSE raw_result.Omega).toStr)]

/-- `Analyzer.analyze`: analyze every function, then report the record of
the first one (or an error record). -/
def analyze (st : AnalyzerState) (ast_nodes : List FunctionNode) :
    Except VisitError (AnalyzerState × List (String × String)) := do
  let st1 ← runFunctions st ast_nodes
  match ast_nodes with
  | [] => .ok (st1, [("error", "No se encontraron funciones para analizar.")])
  | f :: _ =>
    match getEntry f.name st1.function_costs with
    | none =>
      .ok (st1, [("error", "El análisis de la función principal '" ++ f.name ++ "' falló.")])
    | some raw_result => .ok (st1, analyze_output raw_result)

/-! ### Concrete programs (ASTs as the parser's transformer produces them) -/

/-- The divide-and-conquer program of the spec:
`FUNCTION F(n) BEGIN IF (n>1) THEN BEGIN CALL F(n/2) CALL F(n/2)
FOR i<-1 TO n DO BEGIN x<-1 END END END`. -/
def mergeSortProg : FunctionNode :=
  { name := "F", params := ["n"],
    body := .SequenceNode [
      .IfNode (.BinOpNode (.VarNode "n") ">" (.ConstNode 1))
        (.SequenceNode [
          .CallNode "F" [.BinOpNode (.VarNode "n") "/" (.ConstNode 2)],
          .CallNode "F" [.BinOpNode (.VarNode "n") "/" (.ConstNode 2)],
          .ForLoopNode (.VarNode "i") (.ConstNode 1) (.VarNode "n")
            (.SequenceNode [.AssignNode (.VarNode "x") (.ConstNode 1)])])
        none] }

/-- The inner loop of the triangular program:
`FOR j<-i TO n DO BEGIN x<-1 END` (its lower bound is the outer loop's
variable). -/
def triInnerLoop : Statement :=
  .ForLoopNode (.VarNode "j") (.VarNode "i") (.VarNode "n")
    (.SequenceNode [.AssignNode (.VarNode "x") (.ConstNode 1)])

/-- The triangular double loop:
`FOR i<-1 TO n DO BEGIN FOR j<-i TO n DO BEGIN x<-1 END END`. -/
def triangularProg : FunctionNode :=
  { name := "TestTriangular", params := ["n"],
    body := .SequenceNode [
      .ForLoopNode (.VarNode "i") (.ConstNode 1) (.VarNode "n")
        (.SequenceNode [triInnerLoop])] }

/-- The cost the analyzer computes for `triInnerLoop`:
`2*n - 2*i + 2` (sympy distributes the numeric coefficient of
`2*(n - i + 1)` over the sum), with the outer index `i` left as an
opaque symbolic constant. -/
def triInnerCost : SExpr :=
  .add (.add (.mul (.num 2) .n) (.mul (.num (Frac.ofInt (-2))) (.sym "i"))) (.num 2)

/-- The cost the analyzer computes for the whole triangular nest:
`(2*n - 2*i + 2) * n` — a product by the outer iteration count, still
containing the free symbol `i`. -/
def triTotalCost : SExpr := .mul triInnerCost .n

/-- The asymmetric branch: `IF (n>0) THEN <O(n) loop> ELSE <O(1) assignment>`. -/
def ifElseProg : FunctionNode :=
  { name := "TestIfElse", params := ["n"],
    body := .SequenceNode [
      .IfNode (.BinOpNode (.VarNode "n") ">" (.ConstNode 0))
        (.SequenceNode [
          .ForLoopNode (.VarNode "i") (.ConstNode 1) (.VarNode "n")
            (.SequenceNode [.AssignNode (.VarNode "x") (.ConstNode 1)])])
        (some (.SequenceNode [.AssignNode (.VarNode "x") (.ConstNode 1)]))] }

/-- A simple while loop: `WHILE (n>0) DO BEGIN x<-1 END`. -/
def whileProg : FunctionNode :=
  { name := "TestWhile", params := ["n"],
    body := .SequenceNode [
      .WhileLoopNode (.BinOpNode (.VarNode "n") ">" (.ConstNode 0))
        (.SequenceNode [.AssignNode (.VarNode "x") (.ConstNode 1)])] }

/-- A recursive function with disagreeing divisors `n/2` and `n/3`. -/
def mixedProg : FunctionNode :=
  { name := "F", params := ["n"],
    body := .SequenceNode [
      .IfNode (.BinOpNode (.VarNode "n") ">" (.ConstNode 1))
        (.SequenceNode [
          .CallNode "F" [.BinOpNode (.VarNode "n") "/" (.ConstNode 2)],
          .CallNode "F" [.BinOpNode (.VarNode "n") "/" (.ConstNode 3)],
          .ForLoopNode (.VarNode "i") (.ConstNode 1) (.VarNode "n")
            (.SequenceNode [.AssignNode (.VarNode "x") (.ConstNode 1)])])
        none] }

/-- A program whose expression contains the unary `NOT` operator:
`x <- not y` (the grammar's `factor : NOT factor` production). -/
def notProg : FunctionNode :=
  { name := "TestNot", params := ["n"],
    body := .SequenceNode [
      .AssignNode (.VarNode "x") (.UnaryOpNode "not" (.VarNode "y"))] }

/-- Constant-cost program: `x <- 1` then `y <- x + 2`. -/
def constProg : FunctionNode :=
  { name := "TestConstant", params := ["n"],
    body := .SequenceNode [
      .AssignNode (.VarNode "x") (.ConstNode 1),
      .AssignNode (.VarNode "y") (.BinOpNode (.VarNode "x") "+" (.ConstNode 2))] }

/-- A linear helper function `G`: `FOR i<-1 TO n DO BEGIN x<-1 END`. -/
def gProg : FunctionNode :=
  { name := "G", params := ["n"],
    body := .SequenceNode [
      .ForLoopNode (.VarNode "i") (.ConstNode 1) (.VarNode "n")
        (.SequenceNode [.AssignNode (.VarNode "x") (.ConstNode 1)])] }

/-- A function `F` whose body is a single `CALL G(n)`. -/
def fCallsGProg : FunctionNode :=
  { name := "F", params := ["n"],
    body := .SequenceNode [.CallNode "G" [.VarNode "n"]] }

/-- A self-recursive call with an additive symbolic argument:
`FUNCTION F(n) BEGIN CALL F(n + m) END`; divisor extraction evaluates
`if m < 0:` on the symbolic offset and raises `TypeError`. -/
def addArgProg : FunctionNode :=
  { name := "F", params := ["n"],
    body := .SequenceNode [.CallNode "F" [.BinOpNode (.VarNode "n") "+" (.VarNode "m")]] }

/-- A self-recursive call with a multiplicative symbolic argument:
`FUNCTION F(n) BEGIN CALL F(n * m) END`; the symbolic divisor `1/m` is
extracted, and the un-guarded `if b <= 1:` comparison in
`_apply_master_theorem` then raises `TypeError`. -/
def mulArgProg : FunctionNode :=
  { name := "F", params := ["n"],
    body := .SequenceNode [.CallNode "F" [.BinOpNode (.VarNode "n") "*" (.VarNode "m")]] }


/-! ### Surface-syntax terminal data (from `PSEUDOCODE_GRAMMAR` in `parser.py`) -/

/-- The grammar's sole assignment terminal: `ASSIGN: "🡨"`. -/
def ASSIGN_lexeme : String := "🡨"

/-- The grammar's relational-operator terminals, grouped as `REL_OP`:
`GT: ">"`, `LT: "<"`, `GTE: "≥"`, `LTE: "≤"`, `EQ: "="`, `NEQ: "≠"`. -/
def REL_OP_lexemes : List String := [">", "<", "≥", "≤", "=", "≠"]

/-- The grammar's boolean-operator terminals: `AND: "and"`, `OR: "or"`,
`NOT: "not"` (lower case only). -/
def bool_op_lexemes : List String := ["and", "or", "not"]

/-- The multiplicative operators of the `term` rule: `STAR: "*"`,
`SLASH: "/"` (the grammar has no `MOD`/`DIV` operator). -/
def term_op_lexemes : List String := ["*", "/"]

/-- The additive operators of the `arith_expr` rule: `PLUS: "+"`,
`MINUS: "-"`. -/
def additive_op_lexemes : List String := ["+", "-"]

/-- The keyword literals used by the grammar rules.  Lark string literals
match case-sensitively, so these exact spellings are the only ones
accepted. -/
def keyword_lexemes : List String :=
  ["FOR", "TO", "DO", "WHILE", "IF", "THEN", "ELSE", "BEGIN", "END", "CALL", "FUNCTION"]

/-! ### Spec-side reference definitions -/

/-- Modelled from the spec: the closed-form summation rule of §4.2 — the
total cost of a `FOR` loop over `v = a .. b` is the sum of the body cost
at every value of the loop variable (compared here pointwise at concrete
inputs). -/
def spec_loop_summation (a b : Int) (body : Int → Option Frac) : Option Frac :=
  (List.range (b - a + 1).toNat).foldl
    (fun acc k =>
      match acc, body (a + (k : Int)) with
      | some s, some v => some (s.add v)
      | _, _ => none)
    (some 0)

/-- Modelled from the spec: the worst-case `WHILE` cost the spec
prescribes, exactly `n × (condition_cost + body_cost)`. -/
def spec_while_worst (cond_cost body_cost : SExpr) : SExpr :=
  smul SExpr.n (sadd cond_cost body_cost)

/-! ### Coverage of the visitor's dispatch table -/

/-- Does every sub-expression have a `visit_...` method on the `Analyzer`?
(`UnaryOpNode` and `StringNode` do not.) -/
def Expression.handled : Expression → Bool
  | .VarNode _ => true
  | .ConstNode _ => true
  | .BinOpNode l _ r => l.handled && r.handled
  | .StringNode _ => false
  | .UnaryOpNode _ _ => false

/-- Does a statement visit without hitting a raising path?  Every visited
expression must have a `visit_...` method (loop bounds are only resolved
symbolically, never visited), and a call statement's arguments must not
trip the `TypeError` in `_find_recursion_divider` (only possible when the
call is self-recursive; the condition is required of every call here,
which is sound). -/
def Statement.handled : Statement → Bool
  | .SequenceNode stmts => go stmts
  | .AssignNode _ value => value.handled
  | .ForLoopNode _ _ _ body => body.handled
  | .WhileLoopNode condition body => condition.handled && body.handled
  | .IfNode condition then_branch else_branch =>
    condition.handled && then_branch.handled &&
      (match else_branch with
       | some eb => eb.handled
       | none => true)
  | .CallNode _ args =>
    match find_recursion_divider args with
    | .ok _ => true
    | .error _ => false
where
  go : List Statement → Bool
    | [] => true
    | s :: rest => s.handled && go rest


/-! ## Claims -/

/-- C1: for the divide-and-conquer program `FUNCTION F(n) BEGIN IF (n>1)
THEN BEGIN CALL F(n/2) CALL F(n/2) FOR i<-1 TO n DO BEGIN x<-1 END END
END`, the analyzer recognises the function as recursive with branching
factor `a = 2` and divisor `b = 2`, computes linear local work
(`3 + 2n`, dominant term `n`), resolves the recurrence via Master-Theorem
case 2 (the limit of `f(n)/n^(log_2 2)` is finite positive), and reports
the tight bound `Θ(n log n)`. -/
theorem c1_divide_and_conquer_master_case2 :
    visitStmt { initState with current_function_name := some "F",
                               recursion_info := [("F", ⟨0, []⟩)] } mergeSortProg.body =
      .ok ({ function_costs := [], current_function_name := some "F",
             recursion_info := [("F", ⟨2, [.num 2, .num 2]⟩)] },
           ⟨.add (.num 3) (.mul (.num 2) .n), .num 4⟩)
    ∧ get_dominant_term (SExpr.add (.num 3) (.mul (.num 2) .n)) = .n
    ∧ limitClass (simpSE (SExpr.add (.num 3) (.mul (.num 2) .n))) 2 2 = some .eq
    ∧ apply_master_theorem 2 (.num 2) ⟨.add (.num 3) (.mul (.num 2) .n), .num 4⟩ =
        .ok ⟨.mul .n (.log .n), .mul .n (.log .n)⟩
    ∧ analyze initState [mergeSortProg] =
        .ok ({ function_costs := [("F", ⟨.mul .n (.log .n), .mul .n (.log .n)⟩)],
               current_function_name := none,
               recursion_info := [("F", ⟨2, [.num 2, .num 2]⟩)] },
             [("O", "O(n*log(n))"), ("Omega", "Ω(n*log(n))"), ("Theta", "Θ(n*log(n))"),
              ("raw_O", "n*log(n)"), ("raw_Omega", "n*log(n)")]) :=
  ⟨rfl, rfl, rfl, rfl, rfl⟩

/-- C2 counterexample: for the triangular double loop the analyzer's
total cost is `(2*n - 2*i + 2) * n` (sympy auto-distributes the numeric
coefficient over the sum) with the outer index `i` left as a free symbol — a product by the iteration count, not the closed-form summation
the claim requires.  At `n = 3` (valuing the leftover symbol `i` at 1)
the analyzer's total evaluates to 18, while the spec's closed-form
summation of the analyzer's own inner-loop cost over `i = 1..3` is 12. -/
theorem c2_counterexample_triangular_not_summed :
    visitStmt initState triInnerLoop = .ok (initState, ⟨triInnerCost, triInnerCost⟩)
    ∧ getEntry "TestTriangular"
        (match analyze initState [triangularProg] with
         | .ok (st, _) => st.function_costs
         | .error _ => []) = some ⟨triTotalCost, triTotalCost⟩
    ∧ evalSE 3 (fun _ => 1) triTotalCost = some 18
    ∧ spec_loop_summation 1 3 (fun i => evalSE 3 (fun _ => Frac.ofInt i) triInnerCost) = some 12
    ∧ evalSE 3 (fun _ => 1) triTotalCost ≠
        spec_loop_summation 1 3 (fun i => evalSE 3 (fun _ => Frac.ofInt i) triInnerCost) := by
  refine ⟨rfl, rfl, rfl, rfl, ?_⟩
  decide

/-- C2 (amended): for every FOR loop the iteration count is the
symbolically simplified `end − start + 1`, and the total loop cost is the
product `body_cost × count` with the loop variable left as an opaque
symbol (no closed-form summation is performed); for the triangular double
loop the reported record is nevertheless `O(n**2)`, `Ω(n**2)`, `Θ(n**2)`,
because dominant-term extraction treats the leftover inner symbol as a
constant. -/
theorem c2_for_loop_product_rule (st st1 : AnalyzerState) (v a b : Expression)
    (body : Statement) (bc : ComplexityResult)
    (h : visitStmt st body = .ok (st1, bc)) :
    visitStmt st (.ForLoopNode v a b body) =
      .ok (st1, bc.mulCR (simpSE (sadd (ssub (resolve_expr b) (resolve_expr a)) (.num 1))))
    ∧ (match analyze initState [triangularProg] with
       | .ok (st2, r) =>
         (getEntry "TestTriangular" st2.function_costs,
          getEntry "O" r, getEntry "Omega" r, getEntry "Theta" r)
       | .error _ => (none, none, none, none)) =
        (some ⟨triTotalCost, triTotalCost⟩,
         some "O(n**2)", some "Ω(n**2)", some "Θ(n**2)") := by
  constructor
  · show (do
      let start_val := resolve_expr a
      let end_val := resolve_expr b
      let iterations := simpSE (sadd (ssub end_val start_val) (.num 1))
      let (st1, body_cost) ← visitStmt st body
      .ok (st1, body_cost.mulCR iterations) : Except VisitError _) = _
    rw [h]
    rfl
  · rfl

/-- C2 witness for the hypothesis of `c2_for_loop_product_rule`,
discharged on the triangular program's inner loop body. -/
theorem c2_for_loop_product_rule_witness :
    visitStmt initState (.ForLoopNode (.VarNode "j") (.VarNode "i") (.VarNode "n")
        (.SequenceNode [.AssignNode (.VarNode "x") (.ConstNode 1)])) =
      .ok (initState,
        ComplexityResult.mulCR ⟨.num 2, .num 2⟩
          (simpSE (sadd (ssub (resolve_expr (.VarNode "n")) (resolve_expr (.VarNode "i")))
            (.num 1)))) :=
  (c2_for_loop_product_rule initState initState (.VarNode "j") (.VarNode "i") (.VarNode "n")
    (.SequenceNode [.AssignNode (.VarNode "x") (.ConstNode 1)]) ⟨.num 2, .num 2⟩ rfl).1

/-- C3 counterexample: for `WHILE (n>0) DO BEGIN x<-1 END` the condition
costs 3 and the body costs 2, but the analyzer's worst case is
`3 + 5n` = `cond + n×(cond+body)` — not the claim's exact
`n × (condition_cost + body_cost)` (= `5n`): at `n = 1` the two differ
(8 versus 5).  The result also carries no average case at all: the
`ComplexityResult` type has only the `O` and `Omega` components. -/
theorem c3_counterexample_while_worst_cost :
    visitExpr (.BinOpNode (.VarNode "n") ">" (.ConstNode 0)) = .ok ⟨.num 3, .num 3⟩
    ∧ visitStmt initState (Statement.SequenceNode [.AssignNode (.VarNode "x") (.ConstNode 1)]) =
        .ok (initState, ⟨.num 2, .num 2⟩)
    ∧ visitStmt initState
        (.WhileLoopNode (.BinOpNode (.VarNode "n") ">" (.ConstNode 0))
          (.SequenceNode [.AssignNode (.VarNode "x") (.ConstNode 1)])) =
        .ok (initState, ⟨.add (.num 3) (.mul (.num 5) .n), .num 3⟩)
    ∧ evalSE 1 (fun _ => 0) (SExpr.add (.num 3) (.mul (.num 5) .n)) = some 8
    ∧ evalSE 1 (fun _ => 0) (spec_while_worst (.num 3) (.num 2)) = some 5
    ∧ evalSE 1 (fun _ => 0) (SExpr.add (.num 3) (.mul (.num 5) .n)) ≠
        evalSE 1 (fun _ => 0) (spec_while_worst (.num 3) (.num 2)) := by
  refine ⟨rfl, rfl, rfl, rfl, rfl, ?_⟩
  decide

/-- C3 (amended): for every WHILE loop the worst-case cost is
`condition_cost + n × (condition_cost + body_cost)` (one extra condition
evaluation before the `n` assumed iterations), the best-case cost is the
condition cost alone, and no average case is computed anywhere — the
result record of a while-program has only the `O`/`Omega`/`Theta`/raw
entries. -/
theorem c3_while_heuristic (st st1 : AnalyzerState) (condition : Expression)
    (body : Statement) (cc bc : ComplexityResult)
    (hc : visitExpr condition = .ok cc) (hb : visitStmt st body = .ok (st1, bc)) :
    visitStmt st (.WhileLoopNode condition body) =
      .ok (st1, ⟨sadd cc.O (smul (sadd cc.O bc.O) SExpr.n), cc.Omega⟩)
    ∧ analyze initState [whileProg] =
        .ok ({ function_costs := [("TestWhile", ⟨.add (.num 3) (.mul (.num 5) .n), .num 3⟩)],
               current_function_name := none,
               recursion_info := [("TestWhile", ⟨0, []⟩)] },
             [("O", "O(n)"), ("Omega", "Ω(1)"), ("Theta", "Θ(N/A - Cota no ajustada)"),
              ("raw_O", "5*n + 3"), ("raw_Omega", "3")]) := by
  constructor
  · show (do
      let cond_cost ← visitExpr condition
      let (st1, body_cost) ← visitStmt st body
      .ok (st1, (⟨sadd cond_cost.O (smul (sadd cond_cost.O body_cost.O) SExpr.n),
                  cond_cost.Omega⟩ : ComplexityResult)) : Except VisitError _) = _
    rw [hc, hb]
    rfl
  · rfl

/-- C3 witness: the hypotheses of `c3_while_heuristic` discharged on the
concrete while loop `WHILE (n>0) DO BEGIN x<-1 END`. -/
theorem c3_while_heuristic_witness :
    visitStmt initState
        (.WhileLoopNode (.BinOpNode (.VarNode "n") ">" (.ConstNode 0))
          (.SequenceNode [.AssignNode (.VarNode "x") (.ConstNode 1)])) =
      .ok (initState,
        ⟨sadd (SExpr.num 3) (smul (sadd (SExpr.num 3) (SExpr.num 2)) SExpr.n), SExpr.num 3⟩) :=
  (c3_while_heuristic initState initState (.BinOpNode (.VarNode "n") ">" (.ConstNode 0))
    (.SequenceNode [.AssignNode (.VarNode "x") (.ConstNode 1)]) ⟨.num 3, .num 3⟩
    ⟨.num 2, .num 2⟩ rfl rfl).1

/-- C4 counterexample: for a successfully analyzed constant program the
result record's keys are exactly `O`, `Omega`, `Theta`, `raw_O`,
`raw_Omega` — there is no `average_case` entry, no `is_recursive` flag,
no `recurrence` string and no `line_costs` mapping, contrary to the
claim. -/
theorem c4_counterexample_missing_fields :
    analyze initState [constProg] =
      .ok ({ function_costs := [("TestConstant", ⟨.num 6, .num 6⟩)],
             current_function_name := none,
             recursion_info := [("TestConstant", ⟨0, []⟩)] },
           [("O", "O(1)"), ("Omega", "Ω(1)"), ("Theta", "Θ(1)"),
            ("raw_O", "6"), ("raw_Omega", "6")])
    ∧ ([("O", "O(1)"), ("Omega", "Ω(1)"), ("Theta", "Θ(1)"),
        ("raw_O", "6"), ("raw_Omega", "6")] : List (String × String)).map Prod.fst =
        ["O", "Omega", "Theta", "raw_O", "raw_Omega"]
    ∧ getEntry "average_case"
        ([("O", "O(1)"), ("Omega", "Ω(1)"), ("Theta", "Θ(1)"),
          ("raw_O", "6"), ("raw_Omega", "6")] : List (String × String)) = none
    ∧ getEntry "is_recursive"
        ([("O", "O(1)"), ("Omega", "Ω(1)"), ("Theta", "Θ(1)"),
          ("raw_O", "6"), ("raw_Omega", "6")] : List (String × String)) = none
    ∧ getEntry "recurrence"
        ([("O", "O(1)"), ("Omega", "Ω(1)"), ("Theta", "Θ(1)"),
          ("raw_O", "6"), ("raw_Omega", "6")] : List (String × String)) = none
    ∧ getEntry "line_costs"
        ([("O", "O(1)"), ("Omega", "Ω(1)"), ("Theta", "Θ(1)"),
          ("raw_O", "6"), ("raw_Omega", "6")] : List (String × String)) = none :=
  ⟨rfl, rfl, rfl, rfl, rfl, rfl⟩

/-- C4 (amended): every successfully analyzed program yields a record
whose keys are exactly `O`, `Omega`, `Theta`, `raw_O`, `raw_Omega`
(worst-case and best-case dominant notations, a `Θ` line, and the two
simplified raw costs), or a single-key `error` record; no average-case
entry, no recursion flag or recurrence string, and no per-line cost map
exist in the output. -/
theorem c4_record_fields (st st1 : AnalyzerState) (fns : List FunctionNode)
    (r : List (String × String)) (h : analyze st fns = .ok (st1, r)) :
    r.map Prod.fst = ["O", "Omega", "Theta", "raw_O", "raw_Omega"]
    ∨ r.map Prod.fst = ["error"] := by
  unfold analyze at h
  cases hr : runFunctions st fns with
  | error e => rw [hr] at h; exact Except.noConfusion h
  | ok stx =>
    rw [hr] at h
    cases fns with
    | nil =>
      injection h with h1
      injection h1 with h2 h3
      rw [← h3]
      right; rfl
    | cons f rest =>
      have h' : (match getEntry f.name stx.function_costs with
          | none =>
            Except.ok (stx,
              [("error", "El análisis de la función principal '" ++ f.name ++ "' falló.")])
          | some raw_result => Except.ok (stx, analyze_output raw_result)) =
          Except.ok (st1, r) := h
      cases hg : getEntry f.name stx.function_costs with
      | none =>
        rw [hg] at h'
        injection h' with h1
        injection h1 with h2 h3
        rw [← h3]
        right; rfl
      | some raw_result =>
        rw [hg] at h'
        injection h' with h1
        injection h1 with h2 h3
        rw [← h3]
        left; rfl

/-- C4 witness: `c4_record_fields` applied to the concrete constant
program. -/
theorem c4_record_fields_witness :
    ([("O", "O(1)"), ("Omega", "Ω(1)"), ("Theta", "Θ(1)"),
      ("raw_O", "6"), ("raw_Omega", "6")] : List (String × String)).map Prod.fst =
        ["O", "Omega", "Theta", "raw_O", "raw_Omega"]
    ∨ ([("O", "O(1)"), ("Omega", "Ω(1)"), ("Theta", "Θ(1)"),
        ("raw_O", "6"), ("raw_Omega", "6")] : List (String × String)).map Prod.fst =
        ["error"] :=
  c4_record_fields initState
    ⟨[("TestConstant", ⟨.num 6, .num 6⟩)], none, [("TestConstant", ⟨0, []⟩)]⟩
    [constProg] _ rfl

/-- C5 counterexample: the claim fails on a self-call whose first
argument is additive with a symbolic offset: visiting `CALL F(n + m)`
while analyzing `F` makes `_find_recursion_divider` evaluate `if c < 0:`
on the symbolic offset `m`, which raises
`TypeError: cannot determine truth value of Relational` — the call
aborts the analysis instead of contributing zero local cost as the
claim requires of every self-call. -/
theorem c5_counterexample_selfcall_additive_raises :
    visitStmt ⟨[], some "F", [("F", ⟨0, []⟩)]⟩
        (.CallNode "F" [.BinOpNode (.VarNode "n") "+" (.VarNode "m")]) =
      .error (.typeError "cannot determine truth value of Relational")
    ∧ analyze initState [addArgProg] =
        .error (.typeError "cannot determine truth value of Relational") :=
  ⟨rfl, rfl⟩

/-- C5 (amended): for every Call statement visited while analyzing
function `F` (`current_function_name = some F`): a self-call on which
`_find_recursion_divider` returns normally increments the branching
factor `a`, appends the extracted divisor (when one was found — it may
be a symbolic expression such as `1/m`) to `b_list`, and costs zero; a
self-call on which the extraction raises aborts the analysis with that
exception; a call to a previously analyzed function returns its memoised
cost; any other call costs exactly 1.  Concretely the extraction yields
`2` for argument `n/2`, the symbolic `m**(-1)` for `n*m`, raises
`TypeError` for `n + m`, and yields no divisor for `n - 2`. -/
theorem c5_call_dispatch :
    (∀ (st : AnalyzerState) (cur : String) (args : List Expression) (b_val : Option SExpr),
      st.current_function_name = some cur →
      find_recursion_divider args = .ok b_val →
      visitStmt st (.CallNode cur args) =
        .ok (⟨st.function_costs, st.current_function_name,
              setEntry cur
                ⟨((getEntry cur st.recursion_info).getD ⟨0, []⟩).a + 1,
                 (match b_val with
                  | some b => ((getEntry cur st.recursion_info).getD ⟨0, []⟩).b_list ++ [b]
                  | none => ((getEntry cur st.recursion_info).getD ⟨0, []⟩).b_list)⟩
                st.recursion_info⟩,
             ⟨.num 0, .num 0⟩))
    ∧ (∀ (st : AnalyzerState) (cur : String) (args : List Expression) (e : VisitError),
        st.current_function_name = some cur →
        find_recursion_divider args = .error e →
        visitStmt st (.CallNode cur args) = .error e)
    ∧ (∀ (st : AnalyzerState) (func_name : String) (args : List Expression)
        (c : ComplexityResult),
        st.current_function_name ≠ some func_name →
        getEntry func_name st.function_costs = some c →
        visitStmt st (.CallNode func_name args) = .ok (st, c))
    ∧ (∀ (st : AnalyzerState) (func_name : String) (args : List Expression),
        st.current_function_name ≠ some func_name →
        getEntry func_name st.function_costs = none →
        visitStmt st (.CallNode func_name args) = .ok (st, ⟨.num 1, .num 1⟩))
    ∧ find_recursion_divider [.BinOpNode (.VarNode "n") "/" (.ConstNode 2)] =
        .ok (some (.num 2))
    ∧ find_recursion_divider [.BinOpNode (.VarNode "n") "*" (.VarNode "m")] =
        .ok (some (.pow (.sym "m") (.num (Frac.ofInt (-1)))))
    ∧ find_recursion_divider [.BinOpNode (.VarNode "n") "+" (.VarNode "m")] =
        .error (.typeError "cannot determine truth value of Relational")
    ∧ find_recursion_divider [.BinOpNode (.VarNode "n") "-" (.ConstNode 2)] = .ok none := by
  refine ⟨?_, ?_, ?_, ?_, rfl, rfl, rfl, rfl⟩
  · intro st cur args b_val hcur hfind
    obtain ⟨fc, cfn, ri⟩ := st
    obtain rfl : cfn = some cur := hcur
    show (if cur = cur then _ else _) = _
    rw [if_pos rfl, hfind]
  · intro st cur args e hcur hfind
    obtain ⟨fc, cfn, ri⟩ := st
    obtain rfl : cfn = some cur := hcur
    show (if cur = cur then _ else _) = _
    rw [if_pos rfl, hfind]
  · intro st func_name args c hne hget
    obtain ⟨fc, cfn, ri⟩ := st
    cases cfn with
    | none =>
      show (match getEntry func_name fc with
            | some c => Except.ok ((⟨fc, none, ri⟩ : AnalyzerState), c)
            | none => Except.ok ((⟨fc, none, ri⟩ : AnalyzerState), ⟨.num 1, .num 1⟩)) = _
      rw [hget]
    | some cur =>
      have hne' : func_name ≠ cur := fun hh => hne (by rw [hh])
      show (if func_name = cur then _ else _) = _
      rw [if_neg hne']
      show (match getEntry func_name fc with
            | some c => Except.ok ((⟨fc, some cur, ri⟩ : AnalyzerState), c)
            | none => Except.ok ((⟨fc, some cur, ri⟩ : AnalyzerState), ⟨.num 1, .num 1⟩)) = _
      rw [hget]
  · intro st func_name args hne hget
    obtain ⟨fc, cfn, ri⟩ := st
    cases cfn with
    | none =>
      show (match getEntry func_name fc with
            | some c => Except.ok ((⟨fc, none, ri⟩ : AnalyzerState), c)
            | none => Except.ok ((⟨fc, none, ri⟩ : AnalyzerState), ⟨.num 1, .num 1⟩)) = _
      rw [hget]
    | some cur =>
      have hne' : func_name ≠ cur := fun hh => hne (by rw [hh])
      show (if func_name = cur then _ else _) = _
      rw [if_neg hne']
      show (match getEntry func_name fc with
            | some c => Except.ok ((⟨fc, some cur, ri⟩ : AnalyzerState), c)
            | none => Except.ok ((⟨fc, some cur, ri⟩ : AnalyzerState), ⟨.num 1, .num 1⟩)) = _
      rw [hget]

/-- C5 witness: the quantified parts of `c5_call_dispatch` discharged on
concrete states and calls: the self-call `CALL F(n/2)` while analyzing
`F` (divisor `2` appended, zero cost), the raising self-call
`CALL G(n+m)` while analyzing `G`, a memoised call, and an unknown
call. -/
theorem c5_call_dispatch_witness :
    visitStmt ⟨[], some "F", [("F", ⟨0, []⟩)]⟩
        (.CallNode "F" [.BinOpNode (.VarNode "n") "/" (.ConstNode 2)]) =
      .ok (⟨[], some "F", [("F", ⟨1, [.num 2]⟩)]⟩, ⟨.num 0, .num 0⟩)
    ∧ visitStmt ⟨[], some "G", [("G", ⟨0, []⟩)]⟩
        (.CallNode "G" [.BinOpNode (.VarNode "n") "+" (.VarNode "m")]) =
        .error (.typeError "cannot determine truth value of Relational")
    ∧ visitStmt ⟨[("G", ⟨.num 5, .num 5⟩)], none, []⟩ (.CallNode "G" []) =
        .ok (⟨[("G", ⟨.num 5, .num 5⟩)], none, []⟩, ⟨.num 5, .num 5⟩)
    ∧ visitStmt initState (.CallNode "H" []) = .ok (initState, ⟨.num 1, .num 1⟩) := by
  obtain ⟨h1, h2, h3, h4, _⟩ := c5_call_dispatch
  exact ⟨h1 ⟨[], some "F", [("F", ⟨0, []⟩)]⟩ "F"
           [.BinOpNode (.VarNode "n") "/" (.ConstNode 2)] (some (.num 2)) rfl rfl,
         h2 ⟨[], some "G", [("G", ⟨0, []⟩)]⟩ "G"
           [.BinOpNode (.VarNode "n") "+" (.VarNode "m")]
           (.typeError "cannot determine truth value of Relational") rfl rfl,
         h3 ⟨[("G", ⟨.num 5, .num 5⟩)], none, []⟩ "G" [] ⟨.num 5, .num 5⟩ (by decide) rfl,
         h4 initState "H" [] (by decide) rfl⟩

/-- C6 counterexample: for a recursive function whose self-calls use
`n/2` and `n/3`, the analyzer indeed degrades to the local work without
raising — but the result record surfaces no recurrence string and no
recursive flag at all: its keys are only `O`, `Omega`, `Theta`, `raw_O`,
`raw_Omega`, and the recursion metadata (`a = 2`, divisors `[2, 3]`)
stays in the analyzer's internal state. -/
theorem c6_counterexample_no_recurrence_string :
    analyze initState [mixedProg] =
      .ok ({ function_costs := [("F", ⟨.add (.num 3) (.mul (.num 2) .n), .num 4⟩)],
             current_function_name := none,
             recursion_info := [("F", ⟨2, [.num 2, .num 3]⟩)] },
           [("O", "O(n)"), ("Omega", "Ω(1)"), ("Theta", "Θ(N/A - Cota no ajustada)"),
            ("raw_O", "2*n + 3"), ("raw_Omega", "4")])
    ∧ getEntry "recurrence"
        ([("O", "O(n)"), ("Omega", "Ω(1)"), ("Theta", "Θ(N/A - Cota no ajustada)"),
          ("raw_O", "2*n + 3"), ("raw_Omega", "4")] : List (String × String)) = none
    ∧ getEntry "is_recursive"
        ([("O", "O(n)"), ("Omega", "Ω(1)"), ("Theta", "Θ(N/A - Cota no ajustada)"),
          ("raw_O", "2*n + 3"), ("raw_Omega", "4")] : List (String × String)) = none :=
  ⟨rfl, rfl, rfl⟩

/-- C6 (amended): for every recursive function (`a > 0`) whose self-calls
yield no extractable divisor, or divisors that disagree, the recurrence
resolution returns exactly the accumulated local work without raising any
exception; the recursion is recorded only in the analyzer's internal
`recursion_info` (the mixed program ends with `a = 2`,
`b_list = [2, 3]`), no recurrence string or recursive flag is surfaced in
the record, and no closed-form bound beyond the local work is asserted. -/
theorem c6_unresolved_recursion_keeps_local_work :
    (∀ (a : Nat) (f_n_cost : ComplexityResult), 0 < a →
      resolve_function_cost a [] f_n_cost = .ok f_n_cost)
    ∧ (∀ (a : Nat) (b : SExpr) (rest : List SExpr) (f_n_cost : ComplexityResult), 0 < a →
        rest.all (fun v => v = b) = false →
        resolve_function_cost a (b :: rest) f_n_cost = .ok f_n_cost)
    ∧ resolve_function_cost 2 [.num 2, .num 3] ⟨.add (.num 3) (.mul (.num 2) .n), .num 4⟩ =
        .ok ⟨.add (.num 3) (.mul (.num 2) .n), .num 4⟩
    ∧ (match analyze initState [mixedProg] with
       | .ok (st, _) => getEntry "F" st.recursion_info
       | .error _ => none) = some ⟨2, [.num 2, .num 3]⟩ := by
  refine ⟨?_, ?_, rfl, rfl⟩
  · intro a f ha
    unfold resolve_function_cost
    rw [if_pos ha]
    rfl
  · intro a b rest f ha hmix
    unfold resolve_function_cost
    rw [if_pos ha]
    show (if rest.all (fun v => v = b) = true then apply_master_theorem a b f
          else Except.ok f) = Except.ok f
    rw [hmix]
    rfl

/-- C6 witness: the hypotheses of `c6_unresolved_recursion_keeps_local_work`
discharged at `a = 2` with the disagreeing divisor lists `[]` and
`[2, 3]`. -/
theorem c6_unresolved_recursion_keeps_local_work_witness :
    resolve_function_cost 2 [] ⟨.num 7, .num 7⟩ = .ok ⟨.num 7, .num 7⟩
    ∧ resolve_function_cost 2 [.num 2, .num 3] ⟨.num 7, .num 7⟩ = .ok ⟨.num 7, .num 7⟩ :=
  ⟨c6_unresolved_recursion_keeps_local_work.1 2 ⟨.num 7, .num 7⟩ (by decide),
   c6_unresolved_recursion_keeps_local_work.2.1 2 (.num 2) [.num 3] ⟨.num 7, .num 7⟩
     (by decide) (by decide)⟩

/-- C7: a `Θ` is reported exactly when the dominant terms of the
simplified worst-case and best-case costs are syntactically identical
(structural equality of the canonical dominant expressions); otherwise
the `Theta` entry is the explicit "no tight bound" text.  The asymmetric
branch `IF (n>0) THEN <O(n) loop> ELSE <O(1) assignment>` yields worst
`O(n)`, best `Ω(1)`, and `Θ(N/A - Cota no ajustada)`. -/
theorem c7_theta_iff_dominant_terms_equal :
    (∀ raw_result : ComplexityResult,
      getEntry "Theta" (analyze_output raw_result) =
        some (if get_dominant_term raw_result.O = get_dominant_term raw_result.Omega
              then "Θ(" ++ (get_dominant_term raw_result.Omega).toStr ++ ")"
              else "Θ(N/A - Cota no ajustada)"))
    ∧ analyze initState [ifElseProg] =
        .ok ({ function_costs := [("TestIfElse", ⟨.add (.num 3) (.mul (.num 2) .n), .num 5⟩)],
               current_function_name := none,
               recursion_info := [("TestIfElse", ⟨0, []⟩)] },
             [("O", "O(n)"), ("Omega", "Ω(1)"), ("Theta", "Θ(N/A - Cota no ajustada)"),
              ("raw_O", "2*n + 3"), ("raw_Omega", "5")]) := by
  constructor
  · intro raw_result
    show (some (match (if get_dominant_term raw_result.O = get_dominant_term raw_result.Omega
                       then some (get_dominant_term raw_result.Omega) else none) with
                | some t => "Θ(" ++ t.toStr ++ ")"
                | none => "Θ(N/A - Cota no ajustada)") : Option String) = _
    by_cases h : get_dominant_term raw_result.O = get_dominant_term raw_result.Omega
    · rw [if_pos h, if_pos h]
    · rw [if_neg h, if_neg h]
  · rfl

/-- C7 witness: the general part of `c7_theta_iff_dominant_terms_equal`
instantiated at a concrete symmetric cost pair (both dominant terms are
`n`, so a tight `Θ(n)` line is produced). -/
theorem c7_theta_iff_dominant_terms_equal_witness :
    getEntry "Theta" (analyze_output ⟨.mul (.num 2) .n, .mul (.num 2) .n⟩) =
      some (if get_dominant_term (SExpr.mul (.num 2) .n) = get_dominant_term (SExpr.mul (.num 2) .n)
            then "Θ(" ++ (get_dominant_term (SExpr.mul (.num 2) .n)).toStr ++ ")"
            else "Θ(N/A - Cota no ajustada)") :=
  c7_theta_iff_dominant_terms_equal.1 ⟨.mul (.num 2) .n, .mul (.num 2) .n⟩

/-- C8 counterexample: the grammar's assignment terminal is `🡨`, not
`<-`; none of the two-character comparison spellings `<=`, `>=`, `!=`,
`<>` is a relational terminal; the boolean keywords are only lower-case
`and`/`or`/`not`; the multiplicative rule has no `MOD`/`DIV`; and the
keywords are accepted only in their upper-case spelling (Lark string
literals are case-sensitive). -/
theorem c8_counterexample_surface_syntax :
    ASSIGN_lexeme ≠ "<-"
    ∧ "<=" ∉ REL_OP_lexemes ∧ ">=" ∉ REL_OP_lexemes
    ∧ "!=" ∉ REL_OP_lexemes ∧ "<>" ∉ REL_OP_lexemes
    ∧ "AND" ∉ bool_op_lexemes ∧ "OR" ∉ bool_op_lexemes ∧ "NOT" ∉ bool_op_lexemes
    ∧ "MOD" ∉ term_op_lexemes ∧ "DIV" ∉ term_op_lexemes
    ∧ "mod" ∉ term_op_lexemes ∧ "div" ∉ term_op_lexemes
    ∧ "begin" ∉ keyword_lexemes ∧ "function" ∉ keyword_lexemes ∧ "for" ∉ keyword_lexemes := by
  decide

/-- C8 (amended): the surface syntax the grammar accepts uses `🡨` as the
sole assignment operator; its comparison operators are exactly the
single-character terminals `> < ≥ ≤ = ≠`; its boolean operators are the
lower-case words `and`, `or`, `not`; its arithmetic operators are only
`+ - * /`; and the statement keywords are the exact upper-case spellings
(no lower-case keyword is accepted). -/
theorem c8_grammar_terminals :
    ASSIGN_lexeme = "🡨"
    ∧ (∀ s ∈ REL_OP_lexemes, s.length = 1)
    ∧ REL_OP_lexemes = [">", "<", "≥", "≤", "=", "≠"]
    ∧ bool_op_lexemes = ["and", "or", "not"]
    ∧ term_op_lexemes ++ additive_op_lexemes = ["*", "/", "+", "-"]
    ∧ (["for", "to", "do", "while", "if", "then", "else", "begin", "end", "call",
        "function"] : List String).all (fun k => decide (k ∉ keyword_lexemes)) = true := by
  refine ⟨rfl, ?_, rfl, rfl, rfl, by decide⟩
  decide

/-- C8 witness: the quantified part of `c8_grammar_terminals` discharged
at the concrete relational terminal `>`. -/
theorem c8_grammar_terminals_witness : (">" : String).length = 1 :=
  c8_grammar_terminals.2.1 ">" (by decide)

/-- C10 counterexample: analyzing `P = FUNCTION F(n) BEGIN CALL G(n) END`
on an Analyzer instance that previously analyzed
`Q = FUNCTION G(n) BEGIN FOR i<-1 TO n DO BEGIN x<-1 END END` reuses
`G`'s memoised cost (record `Θ(n)`), while a freshly constructed
Analyzer reports `Θ(1)` for the same `P` — the two result records
differ, so the per-analysis state is not scoped to one `analyze` call. -/
theorem c10_counterexample_state_not_scoped :
    analyze initState [gProg] =
      .ok ({ function_costs := [("G", ⟨.mul (.num 2) .n, .mul (.num 2) .n⟩)],
             current_function_name := none, recursion_info := [("G", ⟨0, []⟩)] },
           [("O", "O(n)"), ("Omega", "Ω(n)"), ("Theta", "Θ(n)"),
            ("raw_O", "2*n"), ("raw_Omega", "2*n")])
    ∧ analyze { function_costs := [("G", ⟨.mul (.num 2) .n, .mul (.num 2) .n⟩)],
                current_function_name := none, recursion_info := [("G", ⟨0, []⟩)] }
        [fCallsGProg] =
      .ok ({ function_costs := [("G", ⟨.mul (.num 2) .n, .mul (.num 2) .n⟩),
                               ("F", ⟨.mul (.num 2) .n, .mul (.num 2) .n⟩)],
             current_function_name := none,
             recursion_info := [("G", ⟨0, []⟩), ("F", ⟨0, []⟩)] },
           [("O", "O(n)"), ("Omega", "Ω(n)"), ("Theta", "Θ(n)"),
            ("raw_O", "2*n"), ("raw_Omega", "2*n")])
    ∧ analyze initState [fCallsGProg] =
      .ok ({ function_costs := [("F", ⟨.num 1, .num 1⟩)],
             current_function_name := none, recursion_info := [("F", ⟨0, []⟩)] },
           [("O", "O(1)"), ("Omega", "Ω(1)"), ("Theta", "Θ(1)"),
            ("raw_O", "1"), ("raw_Omega", "1")])
    ∧ ([("O", "O(n)"), ("Omega", "Ω(n)"), ("Theta", "Θ(n)"),
        ("raw_O", "2*n"), ("raw_Omega", "2*n")] : List (String × String)) ≠
      [("O", "O(1)"), ("Omega", "Ω(1)"), ("Theta", "Θ(1)"),
       ("raw_O", "1"), ("raw_Omega", "1")] := by
  refine ⟨rfl, rfl, rfl, ?_⟩
  decide

/-- C10 (amended): the Analyzer instance's `function_costs` memo and
`recursion_info` persist across `analyze` calls — nothing re-initialises
them — so a call statement naming a previously analyzed function is
charged its memoised cost on the reused instance (here `G ↦ 2n`) but
cost 1 on a fresh instance, and the two result records for the same
program differ (`Θ(n)` versus `Θ(1)`). -/
theorem c10_memo_reuse_across_calls :
    visitStmt { function_costs := [("G", ⟨.mul (.num 2) .n, .mul (.num 2) .n⟩)],
                current_function_name := some "F",
                recursion_info := [("G", ⟨0, []⟩), ("F", ⟨0, []⟩)] }
        (.CallNode "G" [.VarNode "n"]) =
      .ok ({ function_costs := [("G", ⟨.mul (.num 2) .n, .mul (.num 2) .n⟩)],
             current_function_name := some "F",
             recursion_info := [("G", ⟨0, []⟩), ("F", ⟨0, []⟩)] },
           ⟨.mul (.num 2) .n, .mul (.num 2) .n⟩)
    ∧ visitStmt { function_costs := [], current_function_name := some "F",
                  recursion_info := [("F", ⟨0, []⟩)] }
        (.CallNode "G" [.VarNode "n"]) =
      .ok ({ function_costs := [], current_function_name := some "F",
             recursion_info := [("F", ⟨0, []⟩)] }, ⟨.num 1, .num 1⟩)
    ∧ (match analyze { function_costs := [("G", ⟨.mul (.num 2) .n, .mul (.num 2) .n⟩)],
                       current_function_name := none, recursion_info := [("G", ⟨0, []⟩)] }
          [fCallsGProg] with
       | .ok (_, r) => getEntry "Theta" r
       | .error _ => none) = some "Θ(n)"
    ∧ (match analyze initState [fCallsGProg] with
       | .ok (_, r) => getEntry "Theta" r
       | .error _ => none) = some "Θ(1)" :=
  ⟨rfl, rfl, rfl, rfl⟩

/-- A visited expression whose sub-expressions all have dispatch methods
produces a cost. -/
theorem visitExpr_handled_ok :
    ∀ e : Expression, e.handled = true → ∃ c, visitExpr e = .ok c := by
  intro e
  induction e with
  | VarNode name => exact fun _ => ⟨⟨.num 1, .num 1⟩, rfl⟩
  | ConstNode v => exact fun _ => ⟨⟨.num 1, .num 1⟩, rfl⟩
  | StringNode v => intro h; exact absurd h (by simp [Expression.handled])
  | BinOpNode l op r ihl ihr =>
    intro h
    have h' : (l.handled && r.handled) = true := h
    simp only [Bool.and_eq_true] at h'
    obtain ⟨cl, hcl⟩ := ihl h'.1
    obtain ⟨cr, hcr⟩ := ihr h'.2
    refine ⟨ComplexityResult.addCR (ComplexityResult.addCR ⟨.num 1, .num 1⟩ cl) cr, ?_⟩
    show (do
      let left_cost ← visitExpr l
      let right_cost ← visitExpr r
      Except.ok (ComplexityResult.addCR (ComplexityResult.addCR ⟨.num 1, .num 1⟩ left_cost)
        right_cost)) = _
    rw [hcl]
    show (do
      let right_cost ← visitExpr r
      Except.ok (ComplexityResult.addCR (ComplexityResult.addCR ⟨.num 1, .num 1⟩ cl)
        right_cost)) = _
    rw [hcr]
    rfl
  | UnaryOpNode op e ih => intro h; exact absurd h (by simp [Expression.handled])

/-- A Call statement whose divisor extraction returns normally succeeds
regardless of state: every remaining branch returns a cost. -/
theorem visitCall_ok (st : AnalyzerState) (f : String) (args : List Expression)
    (b_val : Option SExpr) (hfind : find_recursion_divider args = .ok b_val) :
    ∃ r, visitStmt st (.CallNode f args) = .ok r := by
  obtain ⟨fc, cfn, ri⟩ := st
  cases cfn with
  | none =>
    cases hg : getEntry f fc with
    | none =>
      refine ⟨(⟨fc, none, ri⟩, ⟨.num 1, .num 1⟩), ?_⟩
      show (match getEntry f fc with
            | some c => Except.ok ((⟨fc, none, ri⟩ : AnalyzerState), c)
            | none => Except.ok ((⟨fc, none, ri⟩ : AnalyzerState), ⟨.num 1, .num 1⟩)) = _
      rw [hg]
    | some c =>
      refine ⟨(⟨fc, none, ri⟩, c), ?_⟩
      show (match getEntry f fc with
            | some c => Except.ok ((⟨fc, none, ri⟩ : AnalyzerState), c)
            | none => Except.ok ((⟨fc, none, ri⟩ : AnalyzerState), ⟨.num 1, .num 1⟩)) = _
      rw [hg]
  | some cur =>
    by_cases hf : f = cur
    · subst hf
      cases b_val with
      | none =>
        refine ⟨(⟨fc, some f,
            setEntry f
              ⟨((getEntry f ri).getD ⟨0, []⟩).a + 1,
               ((getEntry f ri).getD ⟨0, []⟩).b_list⟩ ri⟩,
            ⟨.num 0, .num 0⟩), ?_⟩
        show (if f = f then _ else _) = _
        rw [if_pos rfl, hfind]
      | some b =>
        refine ⟨(⟨fc, some f,
            setEntry f
              ⟨((getEntry f ri).getD ⟨0, []⟩).a + 1,
               ((getEntry f ri).getD ⟨0, []⟩).b_list ++ [b]⟩ ri⟩,
            ⟨.num 0, .num 0⟩), ?_⟩
        show (if f = f then _ else _) = _
        rw [if_pos rfl, hfind]
    · cases hg : getEntry f fc with
      | none =>
        refine ⟨(⟨fc, some cur, ri⟩, ⟨.num 1, .num 1⟩), ?_⟩
        show (if f = cur then _ else _) = _
        rw [if_neg hf]
        show (match getEntry f fc with
              | some c => Except.ok ((⟨fc, some cur, ri⟩ : AnalyzerState), c)
              | none => Except.ok ((⟨fc, some cur, ri⟩ : AnalyzerState), ⟨.num 1, .num 1⟩)) = _
        rw [hg]
      | some c =>
        refine ⟨(⟨fc, some cur, ri⟩, c), ?_⟩
        show (if f = cur then _ else _) = _
        rw [if_neg hf]
        show (match getEntry f fc with
              | some c => Except.ok ((⟨fc, some cur, ri⟩ : AnalyzerState), c)
              | none => Except.ok ((⟨fc, some cur, ri⟩ : AnalyzerState), ⟨.num 1, .num 1⟩)) = _
        rw [hg]

/-- Statement-level totality of the visitor's dispatch: every statement
whose visited expressions are handled analyzes without raising, by mutual
structural induction over the nested statement tree. -/
theorem visitStmt_handled_ok :
    ∀ s : Statement, s.handled = true → ∀ st, ∃ r, visitStmt st s = .ok r :=
  @Statement.rec
    (fun s => s.handled = true → ∀ st, ∃ r, visitStmt st s = .ok r)
    (fun l => Statement.handled.go l = true → ∀ st, ∃ r, visitStmt.visitStmts st l = .ok r)
    (fun o => ∀ eb, o = some eb → eb.handled = true → ∀ st, ∃ r, visitStmt st eb = .ok r)
    (fun stmts ih h st => ih h st)
    (fun target value h st => by
      obtain ⟨c, hc⟩ := visitExpr_handled_ok value h
      refine ⟨(st, ComplexityResult.addCR ⟨.num 1, .num 1⟩ c), ?_⟩
      show (do
        let expr_cost ← visitExpr value
        Except.ok (st, ComplexityResult.addCR ⟨.num 1, .num 1⟩ expr_cost)) = _
      rw [hc]
      rfl)
    (fun v a b body ih h st => by
      obtain ⟨⟨st1, bc⟩, hb⟩ := ih h st
      refine ⟨(st1, bc.mulCR (simpSE (sadd (ssub (resolve_expr b) (resolve_expr a))
        (.num 1)))), ?_⟩
      show (do
        let (st1, body_cost) ← visitStmt st body
        Except.ok (st1, body_cost.mulCR (simpSE (sadd (ssub (resolve_expr b) (resolve_expr a))
          (.num 1))))) = _
      rw [hb]
      rfl)
    (fun condition body ihb h st => by
      have h' : (condition.handled && body.handled) = true := h
      simp only [Bool.and_eq_true] at h'
      obtain ⟨cc, hcc⟩ := visitExpr_handled_ok condition h'.1
      obtain ⟨⟨st1, bc⟩, hb⟩ := ihb h'.2 st
      refine ⟨(st1, ⟨sadd cc.O (smul (sadd cc.O bc.O) SExpr.n), cc.Omega⟩), ?_⟩
      show (do
        let cond_cost ← visitExpr condition
        let (st1, body_cost) ← visitStmt st body
        Except.ok (st1, (⟨sadd cond_cost.O (smul (sadd cond_cost.O body_cost.O) SExpr.n),
          cond_cost.Omega⟩ : ComplexityResult))) = _
      rw [hcc]
      show (do
        let (st1, body_cost) ← visitStmt st body
        Except.ok (st1, (⟨sadd cc.O (smul (sadd cc.O body_cost.O) SExpr.n),
          cc.Omega⟩ : ComplexityResult))) = _
      rw [hb]
      rfl)
    (fun condition then_branch else_branch ih_then ih_else h st => by
      cases else_branch with
      | none =>
        have h' : (condition.handled && then_branch.handled && true) = true := h
        simp only [Bool.and_eq_true] at h'
        obtain ⟨⟨h1, h2⟩, _⟩ := h'
        obtain ⟨cc, hcc⟩ := visitExpr_handled_ok condition h1
        obtain ⟨⟨st1, tc⟩, hts⟩ := ih_then h2 st
        refine ⟨(st1, O_Omega_from_branches cc tc ⟨.num 1, .num 1⟩), ?_⟩
        show (do
          let cond_cost ← visitExpr condition
          let (st1, then_cost) ← visitStmt st then_branch
          Except.ok (st1, O_Omega_from_branches cond_cost then_cost ⟨.num 1, .num 1⟩)) = _
        rw [hcc]
        show (do
          let (st1, then_cost) ← visitStmt st then_branch
          Except.ok (st1, O_Omega_from_branches cc then_cost ⟨.num 1, .num 1⟩)) = _
        rw [hts]
        rfl
      | some eb =>
        have h' : (condition.handled && then_branch.handled && eb.handled) = true := h
        simp only [Bool.and_eq_true] at h'
        obtain ⟨⟨h1, h2⟩, h3⟩ := h'
        obtain ⟨cc, hcc⟩ := visitExpr_handled_ok condition h1
        obtain ⟨⟨st1, tc⟩, hts⟩ := ih_then h2 st
        obtain ⟨⟨st2, ec⟩, hes⟩ := ih_else eb rfl h3 st1
        refine ⟨(st2, O_Omega_from_branches cc tc ec), ?_⟩
        show (do
          let cond_cost ← visitExpr condition
          let (st1, then_cost) ← visitStmt st then_branch
          let (st2, else_cost) ← visitStmt st1 eb
          Except.ok (st2, O_Omega_from_branches cond_cost then_cost else_cost)) = _
        rw [hcc]
        show (do
          let (st1, then_cost) ← visitStmt st then_branch
          let (st2, else_cost) ← visitStmt st1 eb
          Except.ok (st2, O_Omega_from_branches cc then_cost else_cost)) = _
        rw [hts]
        show (do
          let (st2, else_cost) ← visitStmt st1 eb
          Except.ok (st2, O_Omega_from_branches cc tc else_cost)) = _
        rw [hes]
        rfl)
    (fun func_name args h st => by
      cases hfind : find_recursion_divider args with
      | error e =>
        have h' : (match find_recursion_divider args with
                   | .ok _ => true
                   | .error _ => false) = true := h
        rw [hfind] at h'
        exact Bool.noConfusion h'
      | ok b_val => exact visitCall_ok st func_name args b_val hfind)
    (fun h st => ⟨(st, ⟨.num 0, .num 0⟩), rfl⟩)
    (fun s tail ih_s ih_tail h st => by
      have h' : (s.handled && Statement.handled.go tail) = true := h
      simp only [Bool.and_eq_true] at h'
      obtain ⟨⟨st1, c1⟩, hs⟩ := ih_s h'.1 st
      obtain ⟨⟨st2, c2⟩, ht⟩ := ih_tail h'.2 st1
      refine ⟨(st2, c1.addCR c2), ?_⟩
      show (do
        let (st1, c1) ← visitStmt st s
        let (st2, c2) ← visitStmt.visitStmts st1 tail
        Except.ok (st2, c1.addCR c2)) = _
      rw [hs]
      show (do
        let (st2, c2) ← visitStmt.visitStmts st1 tail
        Except.ok (st2, c1.addCR c2)) = _
      rw [ht]
      rfl)
    (fun eb h => Option.noConfusion h)
    (fun val ih eb heq => by cases heq; exact ih)

/-- An expression with an unhandled node kind makes the dispatch fall
into `generic_visit`, raising `NotImplementedError` for `UnaryOpNode` or
`StringNode`. -/
theorem visitExpr_unhandled_raises :
    ∀ e : Expression, e.handled = false →
      ∃ t, visitExpr e = .error (.noVisitMethod t) ∧
        (t = "UnaryOpNode" ∨ t = "StringNode") := by
  intro e
  induction e with
  | VarNode name => intro h; exact absurd h (by simp [Expression.handled])
  | ConstNode v => intro h; exact absurd h (by simp [Expression.handled])
  | StringNode v => intro h; exact ⟨"StringNode", rfl, Or.inr rfl⟩
  | UnaryOpNode op e ih => intro h; exact ⟨"UnaryOpNode", rfl, Or.inl rfl⟩
  | BinOpNode l op r ihl ihr =>
    intro h
    have h' : (l.handled && r.handled) = false := h
    cases hl : l.handled with
    | false =>
      obtain ⟨t, hterr, ht⟩ := ihl hl
      refine ⟨t, ?_, ht⟩
      show (do
        let left_cost ← visitExpr l
        let right_cost ← visitExpr r
        Except.ok (ComplexityResult.addCR (ComplexityResult.addCR ⟨.num 1, .num 1⟩ left_cost)
          right_cost)) = _
      rw [hterr]
      rfl
    | true =>
      have hr : r.handled = false := by
        rw [hl] at h'
        simpa using h'
      obtain ⟨cl, hcl⟩ := visitExpr_handled_ok l hl
      obtain ⟨t, hterr, ht⟩ := ihr hr
      refine ⟨t, ?_, ht⟩
      show (do
        let left_cost ← visitExpr l
        let right_cost ← visitExpr r
        Except.ok (ComplexityResult.addCR (ComplexityResult.addCR ⟨.num 1, .num 1⟩ left_cost)
          right_cost)) = _
      rw [hcl]
      show (do
        let right_cost ← visitExpr r
        Except.ok (ComplexityResult.addCR (ComplexityResult.addCR ⟨.num 1, .num 1⟩ cl)
          right_cost)) = _
      rw [hterr]
      rfl

/-- C9 counterexample: the visitor's dispatch is not exhaustive over the
node kinds the parser can produce — the grammar's `factor : NOT factor`
production yields a `UnaryOpNode`, for which the `Analyzer` has no
`visit_...` method, so analyzing `FUNCTION TestNot(n) BEGIN x <- not y
END` raises `NotImplementedError` (`generic_visit`) instead of degrading
to a result-level condition. -/
theorem c9_counterexample_unary_not_raises :
    analyze initState [notProg] = .error (.noVisitMethod "UnaryOpNode")
    ∧ visitExpr (.UnaryOpNode "not" (.VarNode "y")) =
        .error (.noVisitMethod "UnaryOpNode") :=
  ⟨rfl, rfl⟩

/-- C9 (amended): the visitor handles every statement node kind and the
`Var`/`Const`/`BinOp` expression kinds — any statement whose visited
expressions avoid `UnaryOpNode`/`StringNode` and whose calls do not make
the divisor extraction raise analyzes without raising — but analysis
does not degrade failures to a result-level condition: an expression
containing `UnaryOpNode` or `StringNode` raises `NotImplementedError`
(there is no `visit_UnaryOpNode`/`visit_StringNode` method), and
symbolic recursion arguments raise `TypeError` — in
`_find_recursion_divider` for `CALL F(n+m)` and at the un-guarded
comparison in `_apply_master_theorem` for `CALL F(n*m)`. -/
theorem c9_dispatch_not_exhaustive :
    (∀ s : Statement, s.handled = true → ∀ st, ∃ r, visitStmt st s = .ok r)
    ∧ (∀ e : Expression, e.handled = false →
        ∃ t, visitExpr e = .error (.noVisitMethod t) ∧
          (t = "UnaryOpNode" ∨ t = "StringNode"))
    ∧ analyze initState [notProg] = .error (.noVisitMethod "UnaryOpNode")
    ∧ analyze initState [addArgProg] =
        .error (.typeError "cannot determine truth value of Relational")
    ∧ analyze initState [mulArgProg] =
        .error (.typeError "cannot determine truth value of Relational") :=
  ⟨visitStmt_handled_ok, visitExpr_unhandled_raises, rfl, rfl, rfl⟩

/-- C9 witness: the two quantified parts of `c9_dispatch_not_exhaustive`
discharged at a handled assignment and at a `StringNode`. -/
theorem c9_dispatch_not_exhaustive_witness :
    (∃ r, visitStmt initState (Statement.AssignNode (.VarNode "x") (.ConstNode 1)) = .ok r)
    ∧ (∃ t, visitExpr (.StringNode "s") = .error (.noVisitMethod t) ∧
        (t = "UnaryOpNode" ∨ t = "StringNode")) :=
  ⟨c9_dispatch_not_exhaustive.1 (.AssignNode (.VarNode "x") (.ConstNode 1)) rfl initState,
   c9_dispatch_not_exhaustive.2.1 (.StringNode "s") rfl⟩
